import Mathlib

/-!
Verification of the `masterlog` logging module (`masterlog/log.py`) against its
specification.  The Python module is shallowly embedded: the mutable module
state (level, source registry, configuration, buffer queue, worker-thread
handles) becomes an explicit `LogState` record, and each public operation
becomes a state-transforming function translated line by line from the source.
`random.choice` is modelled by an explicit choice function parameter `ch`;
wall-clock timestamps are passed in as explicit string arguments.
-/

namespace Masterlog

/-- Severity level constants (log.py lines 70-75). -/
def DEBUG : Nat := 1

/-- Severity level INFO (log.py line 74). -/
def INFO : Nat := 2

/-- Severity level WARNING (log.py line 73). -/
def WARNING : Nat := 3

/-- Severity level ERROR (log.py line 72). -/
def ERROR : Nat := 4

/-- Severity level CRITICAL (log.py line 71). -/
def CRITICAL : Nat := 5

/-- Severity level RELEASE, the "off" sentinel (log.py line 70). -/
def RELEASE : Nat := 6

/-- The `_level` dict (log.py lines 78-85) mapping level ints to their
uppercase names; `none` models the `KeyError` raised on an unknown key. -/
def levelName : Nat → Option String
  | 1 => some "DEBUG"
  | 2 => some "INFO"
  | 3 => some "WARNING"
  | 4 => some "ERROR"
  | 5 => some "CRITICAL"
  | 6 => some "RELEASE"
  | _ => none

/-- A buffered log entry: the `(args, kwargs)` tuple pushed by `Logger._log`
is always `(timestamp, level, source, message)` (log.py line 294). -/
abbrev Entry := String × Nat × String × String

/-- `Logger._Buffer.push` (log.py lines 136-141): append the entry iff
`len(queue) <= bufferlimit`, silently discard otherwise. -/
def bufPush (bufferlimit : Nat) (q : List Entry) (e : Entry) : List Entry :=
  if q.length ≤ bufferlimit then q ++ [e] else q

/-- `Logger._Buffer.pop` (log.py lines 143-149): remove and return the
leftmost (oldest) entry, or `None` when the queue is empty. -/
def bufPop (q : List Entry) : Option Entry × List Entry :=
  match q with
  | [] => (none, [])
  | e :: rest => (some e, rest)

/-- A sequence of `push` calls with no intervening pops, folded over the
queue. -/
def pushList (bufferlimit : Nat) : List Entry → List Entry → List Entry
  | [], q => q
  | e :: rest, q => pushList bufferlimit rest (bufPush bufferlimit q e)

/-- Repeatedly `pop` until the empty signal, collecting the returned entries
(the drain loop of `log_buffer` / `save_buffered_logs`). The fuel argument
bounds the number of pops and is instantiated with the queue length. -/
def popAllAux : Nat → List Entry → List Entry
  | 0, _ => []
  | fuel + 1, q =>
    match bufPop q with
    | (some e, q2) => e :: popAllAux fuel q2
    | (none, _) => []

/-- Drain the whole queue through `pop`. -/
def popAll (q : List Entry) : List Entry := popAllAux q.length q

lemma pushList_eq_append_take (bufferlimit : Nat) (l : List Entry) :
    ∀ q : List Entry,
      pushList bufferlimit l q = q ++ l.take (bufferlimit + 1 - q.length) := by
  induction l with
  | nil => intro q; simp [pushList]
  | cons e rest ih =>
    intro q
    simp only [pushList, bufPush]
    by_cases h : q.length ≤ bufferlimit
    · rw [if_pos h, ih]
      have h1 : bufferlimit + 1 - q.length = (bufferlimit - q.length) + 1 := by omega
      have h2 : bufferlimit + 1 - (q ++ [e]).length = bufferlimit - q.length := by
        simp only [List.length_append, List.length_cons, List.length_nil]
        omega
      rw [h1, h2]
      simp [List.take_succ_cons]
    · rw [if_neg h, ih]
      have h1 : bufferlimit + 1 - q.length = 0 := by omega
      rw [h1]
      simp

lemma popAllAux_self : ∀ q : List Entry, popAllAux q.length q = q := by
  intro q
  induction q with
  | nil => rfl
  | cons e rest ih =>
    simp only [List.length_cons, popAllAux, bufPop]
    rw [ih]

lemma popAll_self (q : List Entry) : popAll q = q := popAllAux_self q

/-- First witness entry used in concrete buffer counterexamples. -/
def entry1 : Entry := ("12:00:00", 2, "SYSTEM", "first")

/-- Second witness entry used in concrete buffer counterexamples. -/
def entry2 : Entry := ("12:00:01", 2, "SYSTEM", "second")

/-- Third witness entry used in concrete buffer counterexamples. -/
def entry3 : Entry := ("12:00:02", 2, "SYSTEM", "third")

/-- C1 (counterexample): with `bufferlimit = 1`, pushing 2 entries into an
undrained buffer retains both of them, so "pushing c + k entries leaves at
most c entries" is false: the `push` guard is `len(queue) <= bufferlimit`,
which still appends at length exactly `bufferlimit`. -/
theorem push_overflow_exceeds_capacity :
    ¬ (pushList 1 [entry1, entry2] []).length ≤ 1 := by decide

/-- C1 (amended): `push` appends iff the current length is at most (not
strictly less than) the capacity, and silently discards otherwise; pushing
any sequence of entries into an undrained buffer of capacity `c` retains
exactly the first `c + 1` of them, hence at most `c + 1` entries. -/
theorem push_retains_at_most_capacity_succ (bufferlimit : Nat) (l : List Entry) :
    pushList bufferlimit l [] = l.take (bufferlimit + 1) ∧
      (pushList bufferlimit l []).length ≤ bufferlimit + 1 := by
  have h := pushList_eq_append_take bufferlimit l []
  simp only [List.length_nil, Nat.sub_zero, List.nil_append] at h
  refine ⟨h, ?_⟩
  rw [h]
  exact le_trans (List.length_take_le _ _) (le_refl _)

/-- C9: `pop` on a non-empty buffer removes and returns the oldest
(first-pushed) entry; `pop` on an empty buffer returns the empty signal
`none` rather than an error; and draining a buffer filled by a sequence of
pushes yields the retained entries in exactly the order they were pushed
(FIFO) — the first `bufferlimit + 1` pushed entries, in push order. -/
theorem buffer_fifo_pop_order :
    (∀ (e : Entry) (q : List Entry), bufPop (e :: q) = (some e, q)) ∧
      bufPop ([] : List Entry) = (none, []) ∧
      ∀ (bufferlimit : Nat) (l : List Entry),
        popAll (pushList bufferlimit l []) = l.take (bufferlimit + 1) := by
  refine ⟨fun e q => rfl, rfl, fun bufferlimit l => ?_⟩
  rw [popAll_self]
  exact (push_retains_at_most_capacity_succ bufferlimit l).1

/-- One step of an arbitrary interleaving of buffer operations. -/
inductive BufOp where
  | push (e : Entry)
  | pop
deriving DecidableEq

/-- Apply one buffer operation to the queue. -/
def bufStep (bufferlimit : Nat) (q : List Entry) : BufOp → List Entry
  | BufOp.push e => bufPush bufferlimit q e
  | BufOp.pop => (bufPop q).2

/-- Run a sequence of interleaved push/pop operations from a queue. -/
def runBuf (bufferlimit : Nat) (ops : List BufOp) (q : List Entry) : List Entry :=
  ops.foldl (bufStep bufferlimit) q

lemma runBuf_length_le (bufferlimit : Nat) :
    ∀ (ops : List BufOp) (q : List Entry),
      q.length ≤ bufferlimit + 1 → (runBuf bufferlimit ops q).length ≤ bufferlimit + 1 := by
  intro ops
  induction ops with
  | nil => intro q hq; exact hq
  | cons op rest ih =>
    intro q hq
    refine ih _ ?_
    cases op with
    | push e =>
      simp only [bufStep, bufPush]
      by_cases h : q.length ≤ bufferlimit
      · rw [if_pos h]; simp only [List.length_append, List.length_cons, List.length_nil]; omega
      · rw [if_neg h]; exact hq
    | pop =>
      cases q with
      | nil => exact hq
      | cons e rest2 =>
        simp only [bufStep, bufPop, List.length_cons] at hq ⊢
        omega

/-- C10: for every capacity `c` and every interleaving of push and pop
operations starting from an empty buffer, the queue length never exceeds
`c + 1`; `push` still appends when the length equals exactly `c` and drops
only when the length is strictly greater than `c`, so `c + 1` is the tight
bound the buffer maintains. -/
theorem buffer_length_bound_capacity_succ (bufferlimit : Nat) :
    (∀ ops : List BufOp, (runBuf bufferlimit ops []).length ≤ bufferlimit + 1) ∧
      (∀ (q : List Entry) (e : Entry), q.length = bufferlimit →
        bufPush bufferlimit q e = q ++ [e]) ∧
      ∀ (q : List Entry) (e : Entry), bufferlimit < q.length →
        bufPush bufferlimit q e = q := by
  refine ⟨fun ops => runBuf_length_le bufferlimit ops [] (by simp), ?_, ?_⟩
  · intro q e hq
    simp [bufPush, hq]
  · intro q e hq
    simp only [bufPush]
    rw [if_neg (by omega)]

/-- C10 (witness): concrete instances of the bound and of both push
behaviours at capacity 1. -/
theorem buffer_length_bound_capacity_succ_witness :
    (runBuf 1 [BufOp.push entry1, BufOp.push entry2, BufOp.push entry3] []).length ≤ 2 ∧
      bufPush 1 [entry1] entry2 = [entry1] ++ [entry2] ∧
      bufPush 1 [entry1, entry2] entry3 = [entry1, entry2] :=
  ⟨(buffer_length_bound_capacity_succ 1).1 [BufOp.push entry1, BufOp.push entry2, BufOp.push entry3],
    (buffer_length_bound_capacity_succ 1).2.1 [entry1] entry2 (by decide),
    (buffer_length_bound_capacity_succ 1).2.2 [entry1, entry2] entry3 (by decide)⟩

/-- The ANSI escape character `\033` used by the `Colors` dict. -/
def esc : String := String.singleton (Char.ofNat 27)

/-- The `Colors` dict (log.py lines 97-107): color name to escape sequence. -/
def Colors : List (String × String) :=
  [("RED", esc ++ "[31m"), ("GREEN", esc ++ "[32m"), ("YELLOW", esc ++ "[33m"),
   ("BLUE", esc ++ "[34m"), ("MAGENTA", esc ++ "[35m"), ("CYAN", esc ++ "[36m"),
   ("DIMMED", esc ++ "[2m"), ("BOLD", esc ++ "[1m"), ("RESET", esc ++ "[0m")]

/-- The key set of the `Colors` dict, in declaration order. -/
def colorKeys : List String := Colors.map (fun p => p.1)

/-- `Colors[c]` lookup; total with default `""` (the Python `KeyError` branch
is unreachable in the modelled call sites, where the key is always valid). -/
def colorVal (c : String) : String :=
  ((Colors.find? (fun p => p.1 == c)).map (fun p => p.2)).getD ""

/-- The `ColorizedLevel` dict (log.py lines 110-116): title-case level names
wrapped in escape codes; `none` models a missing key. -/
def colorizedLevel : Nat → Option String
  | 5 => some (colorVal "RED" ++ colorVal "BOLD" ++ "Critical" ++ colorVal "RESET")
  | 4 => some (colorVal "RED" ++ "Error" ++ colorVal "RESET")
  | 3 => some (colorVal "YELLOW" ++ "Warning" ++ colorVal "RESET")
  | 2 => some (colorVal "GREEN" ++ "Info" ++ colorVal "RESET")
  | 1 => some (colorVal "DIMMED" ++ "Debug" ++ colorVal "RESET")
  | _ => none

/-- The `ColorizedSource` registry maps a source name to its colorized
display string and its plain color tag. -/
abbrev Registry := List (String × String × String)

/-- The opening brace character. -/
def lbrace : Char := Char.ofNat 123

/-- The closing brace character. -/
def rbrace : Char := Char.ofNat 125

/-- Python `str.format` restricted to the four named fields used by the
logger (`asctime`, `source`, `levelname`, `message`): scans the template,
substitutes each field, maps doubled braces to literal braces, and returns
`none` on an unmatched brace or unknown field (Python raises there). The
fuel argument is instantiated with the template length; each step consumes
at least one character, so the fuel never runs out on the wrapper's call. -/
def pyFormatAux (a s l m : String) : Nat → List Char → Option String
  | _, [] => some ""
  | 0, _ :: _ => none
  | fuel + 1, c :: cs =>
    if c = lbrace then
      match cs with
      | [] => none
      | c2 :: cs2 =>
        if c2 = lbrace then
          (pyFormatAux a s l m fuel cs2).map (fun r => String.singleton lbrace ++ r)
        else
          let field := (c2 :: cs2).takeWhile (fun x => x != rbrace)
          if (c2 :: cs2).length ≤ field.length then none
          else
            let rest := (c2 :: cs2).drop (field.length + 1)
            let key := String.mk field
            let v :=
              if key = "asctime" then some a
              else if key = "source" then some s
              else if key = "levelname" then some l
              else if key = "message" then some m
              else none
            v.bind (fun vv => (pyFormatAux a s l m fuel rest).map (fun r => vv ++ r))
    else if c = rbrace then
      match cs with
      | [] => none
      | c2 :: cs2 =>
        if c2 = rbrace then
          (pyFormatAux a s l m fuel cs2).map (fun r => String.singleton rbrace ++ r)
        else none
    else
      (pyFormatAux a s l m fuel cs).map (fun r => String.singleton c ++ r)

/-- `fmt.format(asctime=a, source=s, levelname=l, message=m)`. -/
def pyFormat (fmt a s l m : String) : Option String :=
  pyFormatAux a s l m fmt.length fmt.toList

/-- The kind of value held by `_Config.sources`: the literal string `'all'`
or a set of source names (modelled as a list). -/
inductive SourcesFilter where
  | all
  | sel (l : List String)
deriving DecidableEq

/-- The `Logger._Config` class (log.py lines 203-212). -/
structure Config where
  level : Nat
  sources : SourcesFilter
  format : String
  dateformat : String
  enable_color : Bool
  enable_save : Bool
  filename : String
  bufferlimit : Nat
deriving DecidableEq

/-- The default `_Config` values (log.py lines 205-212). -/
def defaultConfig : Config :=
  { level := 1
    sources := SourcesFilter.all
    format := "\x7basctime\x7d \x7bsource\x7d : \x7blevelname\x7d -> \x7bmessage\x7d"
    dateformat := "%H:%M:%S"
    enable_color := true
    enable_save := false
    filename := "system.log"
    bufferlimit := 1000 }

/-- `Logger._format` (log.py lines 254-278): when not in file-save mode and
color is enabled, substitute the colorized level and source display forms
(with a dimmed+bold fallback for unregistered sources); otherwise substitute
the plain uppercase level name and the raw source name.  `none` models the
exceptions Python can raise (unknown level, bad template). -/
def formatEntry (cfg : Config) (registry : Registry)
    (timestamp : String) (level : Nat) (source message : String) : Option String :=
  if !cfg.enable_save && cfg.enable_color then
    match levelName level with
    | none => none
    | some plain =>
      let levelname := (colorizedLevel level).getD plain
      let sourceColor :=
        match registry.find? (fun p => p.1 == source) with
        | some p => p.2.1
        | none => colorVal "DIMMED" ++ colorVal "BOLD" ++ source ++ colorVal "RESET"
      pyFormat cfg.format timestamp sourceColor levelname message
  else
    match levelName level with
    | none => none
    | some plain => pyFormat cfg.format timestamp source plain message

/-- The plain rendering used by `_format`'s non-colorized branch: substitute
the uppercase level name and the raw source into the template, consulting
neither the registry nor the color toggle. -/
def plainRender (fmt timestamp : String) (level : Nat) (source message : String) :
    Option String :=
  (levelName level).bind (fun plain => pyFormat fmt timestamp source plain message)

/-- The initial `ColorizedSource` registry (log.py lines 119-121). -/
def initRegistry : Registry :=
  [("SYSTEM", (colorVal "CYAN" ++ colorVal "BOLD" ++ "SYSTEM" ++ colorVal "RESET", "CYAN"))]

/-- The default configuration with colors disabled, as in claim C6. -/
def cfgNoColor : Config := { defaultConfig with enable_color := false }

/-- C6 (counterexample): with the default template, level INFO, source
"APP", message "hello" and colors disabled, the rendered string is not
`"12:00:00 APP : Info -> hello"`: the plain branch of `_format` takes the
level name from the `_level` dict, which stores `"INFO"` in uppercase (the
title-case `"Info"` exists only in `ColorizedLevel`). -/
theorem plain_render_levelname_not_titlecase :
    formatEntry cfgNoColor initRegistry "12:00:00" 2 "APP" "hello" ≠
      some "12:00:00 APP : Info -> hello" := by decide

/-- C6 (amended): for every timestamp string `T`, rendering with the default
template, level INFO, source "APP", message "hello" and colors disabled
produces exactly the literal substitution of the four fields, with the level
rendered as the uppercase `"INFO"`: `T ++ " APP : INFO -> hello"`. -/
theorem plain_render_round_trip (T : String) :
    formatEntry cfgNoColor initRegistry T 2 "APP" "hello" =
      some (T ++ " APP : INFO -> hello") := rfl

/-- C7: whenever file emission mode is active (`enable_save = true`),
`_format` renders through the plain branch — the uppercase level name and
the raw source name substituted into the template — regardless of
`enable_color` and without consulting the color registry, so no color
escape codes are introduced by the level or source substitution. -/
theorem save_mode_suppresses_color (cfg : Config) (registry : Registry)
    (timestamp : String) (level : Nat) (source message : String)
    (hsave : cfg.enable_save = true) :
    formatEntry cfg registry timestamp level source message =
      plainRender cfg.format timestamp level source message := by
  simp only [formatEntry, hsave, Bool.not_true, Bool.false_and, Bool.false_eq_true,
    if_false, plainRender]
  cases levelName level <;> rfl

/-- C7 (witness): a concrete instance with `enable_save = true` and
`enable_color = true`. -/
theorem save_mode_suppresses_color_witness :
    ({ defaultConfig with enable_save := true } : Config).enable_save = true ∧
      formatEntry { defaultConfig with enable_save := true } initRegistry
          "12:00:00" 2 "APP" "hello" =
        plainRender ({ defaultConfig with enable_save := true } : Config).format
          "12:00:00" 2 "APP" "hello" :=
  ⟨rfl, save_mode_suppresses_color { defaultConfig with enable_save := true }
    initRegistry "12:00:00" 2 "APP" "hello" rfl⟩

/-- The whole mutable module state of `log.py`: the saved level
`__currentlevel__`, the source registry (`DEFAULT_SOURCE`, `SOURCES`,
`ColorizedSource`), the live `Logger._Config`, the buffer queue, the two
worker thread handles (modelled as booleans: handle present or `None`) and
the stop event flag. -/
structure LogState where
  currentlevel : Nat
  DEFAULT_SOURCE : String
  SOURCES : List String
  colorized : Registry
  cfg : Config
  queue : List Entry
  logThread : Bool
  saveThread : Bool
  eventSet : Bool
deriving DecidableEq

/-- Python dict assignment `d[k] = v`: replace the first binding of `k` in
place, or append a new binding. -/
def assocSet : Registry → String → String × String → Registry
  | [], k, v => [(k, v)]
  | p :: rest, k, v => if p.1 = k then (k, v) :: rest else p :: assocSet rest k v

/-- Python's `str.upper()` for the ASCII names used here, written so that
it evaluates by kernel reduction. -/
def pyUpper (s : String) : String := String.mk (s.toList.map Char.toUpper)

/-- The set of color tags currently assigned in `ColorizedSource`
(`taken_colors` in `add_source`, log.py line 419). -/
def takenTags (st : LogState) : List String :=
  st.colorized.map (fun p => p.2.2)

/-- `available_colors` in `add_source` (log.py line 420): the palette keys
not currently in use, minus RESET and BOLD. -/
def availColors (st : LogState) : List String :=
  colorKeys.filter (fun k => !(takenTags st).contains k && k != "RESET" && k != "BOLD")

/-- The color-tag computation of `add_source` (log.py lines 417-424):
uppercase the hint, keep it when it is a `Colors` key, otherwise choose from
the unused palette colors, falling back to `"DIMMED"` when none remain. -/
def chosenColor (ch : List String → String) (st : LogState) (color : String) : String :=
  let c := pyUpper color
  if colorKeys.contains c then c
  else if (availColors st).isEmpty then "DIMMED"
  else ch (availColors st)

/-- `add_source` (log.py lines 406-426), with `random.choice` modelled by
the explicit choice function `ch`: add the name to `SOURCES`, compute the
color tag, and register the colorized display string and the tag. -/
def addSource (ch : List String → String) (st : LogState) (source color : String) :
    LogState :=
  let st := { st with
    SOURCES := if source ∈ st.SOURCES then st.SOURCES else st.SOURCES ++ [source] }
  let c := chosenColor ch st color
  { st with
    colorized := assocSet st.colorized source
      (colorVal c ++ colorVal "BOLD" ++ source ++ colorVal "RESET", c) }

/-- `set_default_source` (log.py lines 448-459): uppercase the name, add it
via `add_source` when unknown, then mark it default. -/
def setDefaultSource (ch : List String → String) (st : LogState) (source color : String) :
    LogState :=
  let s := pyUpper source
  let st := if s ∈ st.SOURCES then st else addSource ch st s color
  { st with DEFAULT_SOURCE := s }

/-- `remove_source` (log.py lines 428-446): drop the name from `SOURCES` and
from `ColorizedSource`; when no sources remain, reinstall the built-in
`"SYSTEM"` default; when the removed source was the default, promote a
chosen remaining source to default. -/
def removeSource (ch : List String → String) (st : LogState) (source : String) :
    LogState :=
  let st := { st with SOURCES := st.SOURCES.erase source }
  let st := { st with colorized := st.colorized.filter (fun p => p.1 != source) }
  if st.SOURCES.isEmpty then setDefaultSource ch st "SYSTEM" "CYAN"
  else if source = st.DEFAULT_SOURCE then
    setDefaultSource ch st (ch st.SOURCES) "CYAN"
  else st

/-- The keyword arguments accepted by `Logger.config` (`**kwargs` applied by
`setattr` to `_Config`); `none` means the key was not passed. -/
structure LKwargs where
  level : Option Nat := none
  sources : Option SourcesFilter := none
  format : Option String := none
  dateformat : Option String := none
  enable_color : Option Bool := none
  enable_save : Option Bool := none
  filename : Option String := none
  bufferlimit : Option Nat := none

/-- The `setattr` loop of `Logger.config` (log.py lines 222-223). -/
def applyLKwargs (cfg : Config) (kw : LKwargs) : Config :=
  { level := kw.level.getD cfg.level
    sources := kw.sources.getD cfg.sources
    format := kw.format.getD cfg.format
    dateformat := kw.dateformat.getD cfg.dateformat
    enable_color := kw.enable_color.getD cfg.enable_color
    enable_save := kw.enable_save.getD cfg.enable_save
    filename := kw.filename.getD cfg.filename
    bufferlimit := kw.bufferlimit.getD cfg.bufferlimit }

/-- `Logger.config` (log.py lines 214-235): apply the kwargs to `_Config`,
then re-evaluate the worker mode — when `enable_save` is set and no save
thread runs, stop the logging thread (signal + join) and start a save
thread; when `enable_save` is clear and no logging thread runs, stop the
save thread and start a logging thread.  Starting a thread clears the stop
event. -/
def loggerConfig (st : LogState) (kw : LKwargs) : LogState :=
  let cfg := applyLKwargs st.cfg kw
  let st := { st with cfg := cfg }
  if cfg.enable_save then
    if st.saveThread then st
    else
      let st := { st with eventSet := true, logThread := false }
      { st with saveThread := true, eventSet := false }
  else if st.logThread then st
  else
    let st := { st with eventSet := true, saveThread := false }
    { st with logThread := true, eventSet := false }

/-- The `sources` argument accepted by the module-level `config`: the
literal `'all'`, the literal `'defined'`, or an explicit collection. -/
inductive SourcesArg where
  | all
  | defined
  | explicit (l : List String)
deriving DecidableEq

/-- The keyword arguments accepted by the module-level `config`. -/
structure ModKwargs where
  level : Option Nat := none
  sources : Option SourcesArg := none
  format : Option String := none
  dateformat : Option String := none
  enable_color : Option Bool := none
  enable_save : Option Bool := none
  filename : Option String := none
  bufferlimit : Option Nat := none

/-- `set(xs)` on a collection, keeping first occurrences. -/
def dedup (l : List String) : List String :=
  l.foldl (fun acc s => if s ∈ acc then acc else acc ++ [s]) []

/-- Forward the non-`sources` kwargs of the module-level `config` to
`Logger.config`, with the processed sources value. -/
def toLKwargs (kw : ModKwargs) (srcs : Option SourcesFilter) : LKwargs :=
  { level := kw.level
    sources := srcs
    format := kw.format
    dateformat := kw.dateformat
    enable_color := kw.enable_color
    enable_save := kw.enable_save
    filename := kw.filename
    bufferlimit := kw.bufferlimit }

/-- The module-level `config` (log.py lines 312-350): record the level in
`__currentlevel__`; translate `'all'`/`'defined'` sources; reconcile the
registry against an explicit sources set (add the unknown names, remove the
absent ones), then rebind `SOURCES` to the new set; finally forward
everything to `Logger.config`. -/
def moduleConfig (ch : List String → String) (st : LogState) (kw : ModKwargs) :
    LogState :=
  let st :=
    match kw.level with
    | some x => { st with currentlevel := x }
    | none => st
  match kw.sources with
  | none => loggerConfig st (toLKwargs kw none)
  | some SourcesArg.all => loggerConfig st (toLKwargs kw (some SourcesFilter.all))
  | some SourcesArg.defined =>
    loggerConfig st (toLKwargs kw (some (SourcesFilter.sel st.SOURCES)))
  | some (SourcesArg.explicit l) =>
    let newSources := dedup l
    let st := newSources.foldl
      (fun s src => if src ∈ s.SOURCES then s else addSource ch s src "DIMMED") st
    let snapshot := st.SOURCES
    let st := snapshot.foldl
      (fun s src => if src ∈ newSources then s else removeSource ch s src) st
    let st := { st with SOURCES := newSources }
    loggerConfig st (toLKwargs kw (some (SourcesFilter.sel newSources)))

/-- `disable` (log.py lines 461-463): set the live level to RELEASE via
`Logger.config`, leaving `__currentlevel__` untouched. -/
def disable (st : LogState) : LogState :=
  loggerConfig st { level := some RELEASE }

/-- `enable` (log.py lines 465-467): restore the live level from
`__currentlevel__` via `Logger.config`. -/
def enable (st : LogState) : LogState :=
  loggerConfig st { level := some st.currentlevel }

/-- The source-defaulting in `Logger._log` (log.py lines 289-291): Python's
`if not source:` replaces both `None` and the empty string by
`DEFAULT_SOURCE`. -/
def resolveSource (dflt : String) : Option String → String
  | none => dflt
  | some s => if s = "" then dflt else s

/-- `Logger._isEnabled` (log.py lines 296-310). -/
def isEnabled (cfg : Config) (source : String) (level : Nat) : Bool :=
  if cfg.level ≤ level then
    match cfg.sources with
    | SourcesFilter.all => true
    | SourcesFilter.sel l => l.contains source
  else false

/-- `Logger._log` (log.py lines 280-294): resolve the source, and when
enabled push `(timestamp, level, source, message)` to the buffer; the
timestamp `now` stands for the `_time()` call. -/
def logOp (st : LogState) (level : Nat) (message : String) (source : Option String)
    (now : String) : LogState :=
  let s := resolveSource st.DEFAULT_SOURCE source
  if isEnabled st.cfg s level then
    { st with queue := bufPush st.cfg.bufferlimit st.queue (now, level, s, message) }
  else st

/-- The enablement condition exactly as the specification words it:
`L >= level` and (`sourceFilter == ALL` or `S ∈ sourceFilter`). -/
def specEnabled (cfg : Config) (source : String) (level : Nat) : Prop :=
  cfg.level ≤ level ∧
    (cfg.sources = SourcesFilter.all ∨ ∃ l, cfg.sources = SourcesFilter.sel l ∧ source ∈ l)

/-- The module state right after import (log.py lines 88-121, 203-212,
473-483), before the import-time `Logger.config()` call. -/
def initState : LogState :=
  { currentlevel := 1
    DEFAULT_SOURCE := "SYSTEM"
    SOURCES := ["SYSTEM"]
    colorized := initRegistry
    cfg := defaultConfig
    queue := []
    logThread := false
    saveThread := false
    eventSet := false }

/-- The module state after the import-time `Logger.config()` call made by
the one-time initializer (log.py line 480): the console drain worker runs. -/
def initConfigured : LogState := loggerConfig initState {}

/-- A concrete choice function standing in for `random.choice`: the head of
the list (a member whenever the list is non-empty). -/
def chHead (l : List String) : String := l.headD "SYSTEM"

/-- One call in a registry-mutating call sequence (claim C3). -/
inductive RegOp where
  | addS (name color : String)
  | rmS (name : String)
  | setDef (name color : String)
  | conf (kw : ModKwargs)

/-- Apply one registry call to the state. -/
def applyRegOp (ch : List String → String) (st : LogState) : RegOp → LogState
  | RegOp.addS name color => addSource ch st name color
  | RegOp.rmS name => removeSource ch st name
  | RegOp.setDef name color => setDefaultSource ch st name color
  | RegOp.conf kw => moduleConfig ch st kw

/-- Run a sequence of registry calls from a state. -/
def runRegOps (ch : List String → String) (ops : List RegOp) (st : LogState) :
    LogState :=
  ops.foldl (applyRegOp ch) st

/-- A call whose `sources` option, if any, is not an explicit set. -/
def noExplicitSources : RegOp → Prop
  | RegOp.conf kw => ∀ l, kw.sources ≠ some (SourcesArg.explicit l)
  | _ => True

lemma isEnabled_iff (cfg : Config) (s : String) (L : Nat) :
    isEnabled cfg s L = true ↔ specEnabled cfg s L := by
  unfold isEnabled specEnabled
  by_cases h : cfg.level ≤ L
  · rw [if_pos h]
    cases hs : cfg.sources with
    | all => simp [h]
    | sel l => simp [h, List.elem_iff]
  · rw [if_neg h]
    simp [h]

/-- C2: a logging call enqueues an entry into the buffer iff the message
level is at least the configured level and the configured sources are
`'all'` or contain the resolved source (the given source, with omitted — or
empty, by Python truthiness — sources replaced by the default source); when
the condition is false the call leaves the whole state unchanged and raises
no error.  The enqueue direction is stated for a buffer with room, since a
full buffer drops the entry (claims C1/C10). -/
theorem log_enqueues_iff_enabled (st : LogState) (L : Nat) (src : Option String)
    (msg now : String) :
    (specEnabled st.cfg (resolveSource st.DEFAULT_SOURCE src) L →
      st.queue.length ≤ st.cfg.bufferlimit →
      (logOp st L msg src now).queue =
        st.queue ++ [(now, L, resolveSource st.DEFAULT_SOURCE src, msg)]) ∧
    (¬ specEnabled st.cfg (resolveSource st.DEFAULT_SOURCE src) L →
      logOp st L msg src now = st) := by
  constructor
  · intro hen hroom
    have hb : isEnabled st.cfg (resolveSource st.DEFAULT_SOURCE src) L = true :=
      (isEnabled_iff _ _ _).mpr hen
    simp [logOp, hb, bufPush, hroom]
  · intro hen
    have hb : ¬ isEnabled st.cfg (resolveSource st.DEFAULT_SOURCE src) L = true :=
      fun h => hen ((isEnabled_iff _ _ _).mp h)
    simp [logOp, hb]

/-- C2 (witness): from the initial state, an INFO call with omitted source
is enabled and appends the resolved entry. -/
theorem log_enqueues_iff_enabled_witness :
    specEnabled initState.cfg (resolveSource initState.DEFAULT_SOURCE none) 2 ∧
      initState.queue.length ≤ initState.cfg.bufferlimit ∧
      (logOp initState 2 "hello" none "t").queue =
        initState.queue ++ [("t", 2, resolveSource initState.DEFAULT_SOURCE none, "hello")] :=
  have hen : specEnabled initState.cfg (resolveSource initState.DEFAULT_SOURCE none) 2 :=
    ⟨by decide, Or.inl rfl⟩
  ⟨hen, by decide,
    (log_enqueues_iff_enabled initState 2 none "hello" "t").1 hen (by decide)⟩

/-- Exactly one drain worker handle is active. -/
def oneWorker (st : LogState) : Prop :=
  (st.logThread = true ∧ st.saveThread = false) ∨
    (st.logThread = false ∧ st.saveThread = true)

lemma loggerConfig_oneWorker (st : LogState) (kw : LKwargs)
    (h : ¬ (st.logThread = true ∧ st.saveThread = true)) :
    oneWorker (loggerConfig st kw) := by
  unfold oneWorker loggerConfig
  cases he : (applyLKwargs st.cfg kw).enable_save <;>
    cases hl : st.logThread <;> cases hsv : st.saveThread <;>
      simp_all

lemma addSource_logThread (ch : List String → String) (st : LogState) (n c : String) :
    (addSource ch st n c).logThread = st.logThread := rfl

lemma addSource_saveThread (ch : List String → String) (st : LogState) (n c : String) :
    (addSource ch st n c).saveThread = st.saveThread := rfl

lemma setDefaultSource_logThread (ch : List String → String) (st : LogState)
    (n c : String) : (setDefaultSource ch st n c).logThread = st.logThread := by
  unfold setDefaultSource
  by_cases h : pyUpper n ∈ st.SOURCES <;> simp [h, addSource_logThread]

lemma setDefaultSource_saveThread (ch : List String → String) (st : LogState)
    (n c : String) : (setDefaultSource ch st n c).saveThread = st.saveThread := by
  unfold setDefaultSource
  by_cases h : pyUpper n ∈ st.SOURCES <;> simp [h, addSource_saveThread]

lemma removeSource_logThread (ch : List String → String) (st : LogState) (n : String) :
    (removeSource ch st n).logThread = st.logThread := by
  unfold removeSource
  dsimp only
  split
  · exact setDefaultSource_logThread ch _ _ _
  · split
    · exact setDefaultSource_logThread ch _ _ _
    · rfl

lemma removeSource_saveThread (ch : List String → String) (st : LogState) (n : String) :
    (removeSource ch st n).saveThread = st.saveThread := by
  unfold removeSource
  dsimp only
  split
  · exact setDefaultSource_saveThread ch _ _ _
  · split
    · exact setDefaultSource_saveThread ch _ _ _
    · rfl

lemma addFold_threads (ch : List String → String) (newSources : List String) :
    ∀ st : LogState,
      ((newSources.foldl
          (fun s src => if src ∈ s.SOURCES then s else addSource ch s src "DIMMED")
          st).logThread = st.logThread ∧
        (newSources.foldl
          (fun s src => if src ∈ s.SOURCES then s else addSource ch s src "DIMMED")
          st).saveThread = st.saveThread) := by
  induction newSources with
  | nil => intro st; exact ⟨rfl, rfl⟩
  | cons a rest ih =>
    intro st
    simp only [List.foldl_cons]
    refine ⟨((ih _).1).trans ?_, ((ih _).2).trans ?_⟩ <;>
      by_cases h : a ∈ st.SOURCES <;>
        simp [h, addSource_logThread, addSource_saveThread]

lemma rmFold_threads (ch : List String → String) (newSources snapshot : List String) :
    ∀ st : LogState,
      ((snapshot.foldl
          (fun s src => if src ∈ newSources then s else removeSource ch s src)
          st).logThread = st.logThread ∧
        (snapshot.foldl
          (fun s src => if src ∈ newSources then s else removeSource ch s src)
          st).saveThread = st.saveThread) := by
  induction snapshot with
  | nil => intro st; exact ⟨rfl, rfl⟩
  | cons a rest ih =>
    intro st
    simp only [List.foldl_cons]
    refine ⟨((ih _).1).trans ?_, ((ih _).2).trans ?_⟩ <;>
      by_cases h : a ∈ newSources <;>
        simp [h, removeSource_logThread, removeSource_saveThread]

lemma moduleConfig_oneWorker (ch : List String → String) (st : LogState) (kw : ModKwargs)
    (h : ¬ (st.logThread = true ∧ st.saveThread = true)) :
    oneWorker (moduleConfig ch st kw) := by
  unfold moduleConfig
  have hlvl : ∀ st' : LogState,
      (match kw.level with
        | some x => { st' with currentlevel := x }
        | none => st').logThread = st'.logThread ∧
      (match kw.level with
        | some x => { st' with currentlevel := x }
        | none => st').saveThread = st'.saveThread := by
    intro st'; cases kw.level <;> exact ⟨rfl, rfl⟩
  cases hsrc : kw.sources with
  | none =>
    exact loggerConfig_oneWorker _ _ (by rw [(hlvl st).1, (hlvl st).2]; exact h)
  | some arg =>
    cases arg with
    | all =>
      exact loggerConfig_oneWorker _ _ (by rw [(hlvl st).1, (hlvl st).2]; exact h)
    | defined =>
      exact loggerConfig_oneWorker _ _ (by rw [(hlvl st).1, (hlvl st).2]; exact h)
    | explicit l =>
      refine loggerConfig_oneWorker _ _ ?_
      rw [(rmFold_threads ch _ _ _).1, (rmFold_threads ch _ _ _).2,
        (addFold_threads ch _ _).1, (addFold_threads ch _ _).2,
        (hlvl st).1, (hlvl st).2]
      exact h

lemma runConfigs_oneWorker (ch : List String → String) :
    ∀ (ops : List ModKwargs) (st : LogState),
      oneWorker st → oneWorker (ops.foldl (moduleConfig ch) st) := by
  intro ops
  induction ops with
  | nil => intro st h; exact h
  | cons kw rest ih =>
    intro st h
    refine ih _ (moduleConfig_oneWorker ch st kw ?_)
    rcases h with ⟨h1, h2⟩ | ⟨h1, h2⟩ <;> simp [h1, h2]

/-- C4: in every state reachable by a sequence of `configure` calls after
the initial configuration, exactly one drain worker handle is active —
never both the console-drain thread and the file-drain thread, and never
neither.  The step function `loggerConfig` encodes that switching modes
signals and joins the previous worker before starting the new one. -/
theorem drain_worker_exclusivity (ch : List String → String) (ops : List ModKwargs) :
    oneWorker (ops.foldl (moduleConfig ch) initConfigured) :=
  runConfigs_oneWorker ch ops initConfigured (Or.inl ⟨rfl, rfl⟩)

lemma loggerConfig_cfg (st : LogState) (kw : LKwargs) :
    (loggerConfig st kw).cfg = applyLKwargs st.cfg kw := by
  unfold loggerConfig
  dsimp only
  split
  · split <;> rfl
  · split <;> rfl

lemma loggerConfig_currentlevel (st : LogState) (kw : LKwargs) :
    (loggerConfig st kw).currentlevel = st.currentlevel := by
  unfold loggerConfig
  dsimp only
  split
  · split <;> rfl
  · split <;> rfl

lemma loggerConfig_SOURCES (st : LogState) (kw : LKwargs) :
    (loggerConfig st kw).SOURCES = st.SOURCES := by
  unfold loggerConfig
  dsimp only
  split
  · split <;> rfl
  · split <;> rfl

lemma loggerConfig_DEFAULT (st : LogState) (kw : LKwargs) :
    (loggerConfig st kw).DEFAULT_SOURCE = st.DEFAULT_SOURCE := by
  unfold loggerConfig
  dsimp only
  split
  · split <;> rfl
  · split <;> rfl

lemma moduleConfig_level_currentlevel (ch : List String → String) (st : LogState)
    (X : Nat) :
    (moduleConfig ch st { level := some X }).currentlevel = X := by
  unfold moduleConfig
  dsimp only
  rw [loggerConfig_currentlevel]

lemma disable_cfg_level (st : LogState) : (disable st).cfg.level = RELEASE := by
  unfold disable
  rw [loggerConfig_cfg]
  rfl

lemma disable_currentlevel (st : LogState) :
    (disable st).currentlevel = st.currentlevel := loggerConfig_currentlevel st _

lemma enable_cfg_level (st : LogState) : (enable st).cfg.level = st.currentlevel := by
  unfold enable
  rw [loggerConfig_cfg]
  rfl

/-- C5: after `config(level := X)` and then `disable()`, no message at any
public severity (DEBUG = 1 through CRITICAL = 5) changes the state — the
live level is the RELEASE sentinel, above every public severity — and a
subsequent `enable()` restores the live level threshold to exactly `X`,
which `disable()` left saved in `__currentlevel__`. -/
theorem disable_enable_restores_level (ch : List String → String) (st : LogState)
    (X : Nat) :
    (∀ L, 1 ≤ L → L ≤ 5 →
      ∀ (msg : String) (src : Option String) (now : String),
        logOp (disable (moduleConfig ch st { level := some X })) L msg src now =
          disable (moduleConfig ch st { level := some X })) ∧
      (enable (disable (moduleConfig ch st { level := some X }))).cfg.level = X := by
  constructor
  · intro L h1 h5 msg src now
    have hlvl : (disable (moduleConfig ch st { level := some X })).cfg.level = RELEASE :=
      disable_cfg_level _
    have hb : ¬ isEnabled (disable (moduleConfig ch st { level := some X })).cfg
        (resolveSource
          (disable (moduleConfig ch st { level := some X })).DEFAULT_SOURCE src) L = true := by
      unfold isEnabled
      rw [hlvl]
      rw [if_neg (by unfold RELEASE; omega)]
      simp
    simp [logOp, hb]
  · rw [enable_cfg_level, disable_currentlevel, moduleConfig_level_currentlevel]

/-- C5 (witness): configuring level WARNING, disabling, then a CRITICAL
message is a no-op and enabling restores level 3. -/
theorem disable_enable_restores_level_witness :
    logOp (disable (moduleConfig chHead initState { level := some 3 })) 5 "m" none "t" =
        disable (moduleConfig chHead initState { level := some 3 }) ∧
      (enable (disable (moduleConfig chHead initState { level := some 3 }))).cfg.level = 3 :=
  ⟨(disable_enable_restores_level chHead initState 3).1 5 (by decide) (by decide)
      "m" none "t",
    (disable_enable_restores_level chHead initState 3).2⟩

/-- The registry invariant of the specification: the set of known sources
is non-empty and the default source is one of them. -/
def registryInv (st : LogState) : Prop :=
  st.SOURCES ≠ [] ∧ st.DEFAULT_SOURCE ∈ st.SOURCES

lemma addSource_SOURCES (ch : List String → String) (st : LogState) (n c : String) :
    (addSource ch st n c).SOURCES =
      if n ∈ st.SOURCES then st.SOURCES else st.SOURCES ++ [n] := rfl

lemma addSource_DEFAULT (ch : List String → String) (st : LogState) (n c : String) :
    (addSource ch st n c).DEFAULT_SOURCE = st.DEFAULT_SOURCE := rfl

lemma mem_addSource_self (ch : List String → String) (st : LogState) (n c : String) :
    n ∈ (addSource ch st n c).SOURCES := by
  rw [addSource_SOURCES]
  split
  · assumption
  · exact List.mem_append_right _ (List.mem_singleton_self n)

lemma addSource_registryInv (ch : List String → String) (st : LogState) (n c : String)
    (h : registryInv st) : registryInv (addSource ch st n c) := by
  obtain ⟨h1, h2⟩ := h
  constructor
  · rw [addSource_SOURCES]
    split
    · exact h1
    · simp
  · rw [addSource_SOURCES, addSource_DEFAULT]
    split
    · exact h2
    · exact List.mem_append_left _ h2

lemma setDefaultSource_registryInv (ch : List String → String) (st : LogState)
    (s c : String) : registryInv (setDefaultSource ch st s c) := by
  unfold setDefaultSource
  dsimp only
  by_cases h : pyUpper s ∈ st.SOURCES
  · rw [if_pos h]
    exact ⟨List.ne_nil_of_mem h, h⟩
  · rw [if_neg h]
    refine ⟨?_, mem_addSource_self ch st (pyUpper s) c⟩
    exact List.ne_nil_of_mem (mem_addSource_self ch st (pyUpper s) c)

lemma removeSource_registryInv (ch : List String → String) (st : LogState) (n : String)
    (h : registryInv st) : registryInv (removeSource ch st n) := by
  obtain ⟨h1, h2⟩ := h
  unfold removeSource
  dsimp only
  split
  · exact setDefaultSource_registryInv ch _ "SYSTEM" "CYAN"
  · split
    · exact setDefaultSource_registryInv ch _ _ "CYAN"
    · rename_i hne hd
      constructor
      · intro hnil
        apply hne
        have hnil2 : st.SOURCES.erase n = [] := hnil
        show (st.SOURCES.erase n).isEmpty = true
        rw [hnil2]
        rfl
      · show st.DEFAULT_SOURCE ∈ st.SOURCES.erase n
        exact (List.mem_erase_of_ne (fun he => hd he.symm)).mpr h2

lemma loggerConfig_registryInv (st : LogState) (kw : LKwargs) (h : registryInv st) :
    registryInv (loggerConfig st kw) :=
  ⟨by rw [loggerConfig_SOURCES]; exact h.1,
    by rw [loggerConfig_SOURCES, loggerConfig_DEFAULT]; exact h.2⟩

lemma moduleConfig_registryInv (ch : List String → String) (st : LogState)
    (kw : ModKwargs) (hkw : ∀ l, kw.sources ≠ some (SourcesArg.explicit l))
    (h : registryInv st) : registryInv (moduleConfig ch st kw) := by
  unfold moduleConfig
  dsimp only
  have hst : registryInv
      (match kw.level with
        | some x => { st with currentlevel := x }
        | none => st) := by
    cases kw.level with
    | none => exact h
    | some x => exact ⟨h.1, h.2⟩
  cases hsrc : kw.sources with
  | none => exact loggerConfig_registryInv _ _ hst
  | some arg =>
    cases arg with
    | all => exact loggerConfig_registryInv _ _ hst
    | defined => exact loggerConfig_registryInv _ _ hst
    | explicit l => exact absurd hsrc (hkw l)

lemma applyRegOp_registryInv (ch : List String → String) (st : LogState) (op : RegOp)
    (hop : noExplicitSources op) (h : registryInv st) :
    registryInv (applyRegOp ch st op) := by
  cases op with
  | addS n c => exact addSource_registryInv ch st n c h
  | rmS n => exact removeSource_registryInv ch st n h
  | setDef n c => exact setDefaultSource_registryInv ch st n c
  | conf kw => exact moduleConfig_registryInv ch st kw hop h

lemma runRegOps_registryInv (ch : List String → String) :
    ∀ (ops : List RegOp) (st : LogState),
      (∀ op ∈ ops, noExplicitSources op) → registryInv st →
        registryInv (runRegOps ch ops st) := by
  intro ops
  induction ops with
  | nil => intro st _ h; exact h
  | cons op rest ih =>
    intro st hops h
    exact ih _ (fun o ho => hops o (List.mem_cons_of_mem op ho))
      (applyRegOp_registryInv ch st op (hops op (List.mem_cons_self op rest)) h)

/-- C3 (counterexample): the single call `configure(sources = ())` — an
explicit, empty sources set — leaves the registry with an empty set of
known sources (and hence without its default source): after the
reconciliation loops re-install `"SYSTEM"`, the assignment
`SOURCES = new_sources` rebinds the set of known sources to the explicit
(empty) set, discarding the repair. -/
theorem configure_empty_sources_breaks_registry :
    ¬ registryInv
      (runRegOps chHead [RegOp.conf { sources := some (SourcesArg.explicit []) }]
        initState) := by
  intro h
  exact h.1 rfl

/-- C3 (amended): after every finite sequence of `add_source`,
`remove_source`, `set_default_source`, and `configure` calls whose
`sources` option (if any) is `'all'` or `'defined'` rather than an explicit
set, the set of known sources is non-empty and the default source is a
member of it.  `configure` with an explicit sources set can break the
invariant (see the counterexample). -/
theorem registry_invariant_without_explicit_configure (ch : List String → String)
    (ops : List RegOp) (hops : ∀ op ∈ ops, noExplicitSources op) :
    registryInv (runRegOps ch ops initState) :=
  runRegOps_registryInv ch ops initState hops ⟨by decide, by decide⟩

/-- C3 (witness): removing the lone default source reinstalls the built-in
default, keeping the invariant. -/
theorem registry_invariant_witness :
    (∀ op ∈ [RegOp.rmS "SYSTEM"], noExplicitSources op) ∧
      registryInv (runRegOps chHead [RegOp.rmS "SYSTEM"] initState) :=
  have hops : ∀ op ∈ [RegOp.rmS "SYSTEM"], noExplicitSources op := by
    intro op hop
    rw [List.mem_singleton] at hop
    rw [hop]
    exact trivial
  ⟨hops, registry_invariant_without_explicit_configure chHead [RegOp.rmS "SYSTEM"] hops⟩

/-- The plain color tag registered for a source name. -/
def colorTagOf (st : LogState) (name : String) : Option String :=
  (st.colorized.find? (fun p => p.1 == name)).map (fun p => p.2.2)

lemma find_assocSet (l : Registry) (k : String) (v : String × String) :
    (assocSet l k v).find? (fun p => p.1 == k) = some (k, v) := by
  induction l with
  | nil => simp [assocSet, List.find?]
  | cons p rest ih =>
    by_cases h : p.1 = k
    · simp [assocSet, h, List.find?]
    · simp only [assocSet, if_neg h]
      rw [List.find?_cons_of_neg _ (by simp [h]), ih]

lemma colorTagOf_addSource (ch : List String → String) (st : LogState)
    (name color : String) :
    colorTagOf (addSource ch st name color) name = some (chosenColor ch st color) := by
  unfold colorTagOf addSource
  dsimp only
  rw [find_assocSet]
  rfl

/-- C8 (counterexample): `add_source("APP", "CYAN")` from the initial state
assigns the tag `"CYAN"` to `"APP"` even though `"CYAN"` is already
assigned to the registered source `"SYSTEM"`: the code only replaces a hint
that is not a valid `Colors` key, never one that is merely already taken. -/
theorem add_source_keeps_taken_hint :
    colorTagOf (addSource chHead initState "APP" "CYAN") "APP" = some "CYAN" ∧
      colorTagOf (addSource chHead initState "APP" "CYAN") "SYSTEM" = some "CYAN" := by
  decide

/-- C8 (amended): for every `add_source(name, colorHint)` call: when the
uppercased hint is a valid palette color it is assigned as-is, even when it
is already assigned to another registered source; when the hint is invalid,
the source is assigned a color chosen from the palette colors not currently
in use (excluding RESET and BOLD); when no unused palette color remains,
the fixed default `"DIMMED"` is assigned; in no case is an error raised. -/
theorem add_source_color_assignment (ch : List String → String) (st : LogState)
    (name color : String) (hch : ∀ l : List String, l ≠ [] → ch l ∈ l) :
    (colorKeys.contains (pyUpper color) = true →
      colorTagOf (addSource ch st name color) name = some (pyUpper color)) ∧
    (colorKeys.contains (pyUpper color) = false → availColors st ≠ [] →
      colorTagOf (addSource ch st name color) name = some (ch (availColors st)) ∧
        ch (availColors st) ∉ takenTags st) ∧
    (colorKeys.contains (pyUpper color) = false → availColors st = [] →
      colorTagOf (addSource ch st name color) name = some "DIMMED") := by
  refine ⟨?_, ?_, ?_⟩
  · intro hc
    rw [colorTagOf_addSource]
    unfold chosenColor
    dsimp only
    rw [if_pos hc]
  · intro hc hne
    have hcc : ¬ colorKeys.contains (pyUpper color) = true := by
      rw [hc]
      exact Bool.false_ne_true
    have hni : ¬ (availColors st).isEmpty = true := by
      simp [List.isEmpty_iff, hne]
    constructor
    · rw [colorTagOf_addSource]
      unfold chosenColor
      dsimp only
      rw [if_neg hcc, if_neg hni]
    · have hmem : ch (availColors st) ∈ availColors st := hch _ hne
      have hmem2 : ch (availColors st) ∈ colorKeys.filter
          (fun k => !(takenTags st).contains k && k != "RESET" && k != "BOLD") := hmem
      have hp := (List.mem_filter.mp hmem2).2
      intro habs
      have hcontains : (takenTags st).contains (ch (availColors st)) = true :=
        List.elem_iff.mpr habs
      simp only [Bool.and_eq_true, Bool.not_eq_true'] at hp
      rw [hp.1.1] at hcontains
      exact Bool.false_ne_true hcontains
  · intro hc hemp
    have hcc : ¬ colorKeys.contains (pyUpper color) = true := by
      rw [hc]
      exact Bool.false_ne_true
    rw [colorTagOf_addSource]
    unfold chosenColor
    dsimp only
    rw [if_neg hcc, if_pos (by rw [hemp]; rfl)]

/-- C8 (witness): the invalid hint `"purple"` on the initial state is
replaced by the chosen unused palette color, which is not in use. -/
theorem add_source_color_assignment_witness :
    colorKeys.contains (pyUpper "purple") = false ∧
      availColors initState ≠ [] ∧
      colorTagOf (addSource chHead initState "APP" "purple") "APP" =
          some (chHead (availColors initState)) ∧
        chHead (availColors initState) ∉ takenTags initState :=
  have hch : ∀ l : List String, l ≠ [] → chHead l ∈ l := by
    intro l h
    cases l with
    | nil => exact absurd rfl h
    | cons a t => exact List.mem_cons_self a t
  have h2 := (add_source_color_assignment chHead initState "APP" "purple" hch).2.1
    (by decide) (by decide)
  ⟨by decide, by decide, h2.1, h2.2⟩

end Masterlog
